import Mathlib

/- Verification of the GNK-Droid-Bot league-run lifecycle (src/gnk_bot.py):
daily run limiting, matchmaking queue pairing, match-result recording through
the confirm/dispute/timeout protocol, admin overrides, archival and
reactivation.  All stateful code is embedded as pure functions from an
explicit bot state (the contents of current_runs.json, completed_runs.json,
user_history.json and the in-memory player queue) to a new state.  Times are
modelled in integer minutes; the reference timezone US/Pacific is modelled as
a fixed UTC offset, as the spec fixes a single reference timezone. -/

/-- MATCH_LIMIT (gnk_bot.py line 58). -/
def MATCH_LIMIT : Nat := 3

/-- MAX_RUNS_PER_DAY (gnk_bot.py line 57). -/
def MAX_RUNS_PER_DAY : Nat := 2

/-- A stored run-start timestamp, in minutes: `value` is the wall-clock
reading and `offset` its UTC offset (`none` for a naive stamp; the code
localizes naive stamps as UTC inside `can_start_run`). -/
structure TS where
  value : Int
  offset : Option Int
deriving DecidableEq, Repr

/-- The absolute instant (UTC minutes) denoted by a stored timestamp; a
naive stamp is interpreted as UTC, exactly as `pytz.utc.localize` does in
`can_start_run` (gnk_bot.py line 178). -/
def TS.instant (t : TS) : Int :=
  match t.offset with
  | some o => t.value - o
  | none => t.value

/-- The reference timezone US/Pacific modelled as a fixed UTC offset in
minutes.  Aware-datetime comparisons in Python compare absolute instants, so
only order matters and a fixed offset is faithful away from DST transitions,
which lie outside this integer-minute model. -/
def pacOffset : Int := -480

/-- Minutes in a day. -/
def DAY : Int := 1440

/-- Minutes past midnight of the daily reset (3:00 AM, gnk_bot.py line 151). -/
def RESET_MINUTE : Int := 180

/-- Model of `get_last_3am_pacific` (gnk_bot.py lines 145-156): the most recent
3:00 AM Pacific wall clock at or before now; argument and result are UTC
instants mapped through the fixed Pacific offset. -/
def get_last_3am_pacific (nowUtc : Int) : Int :=
  let nowPac := nowUtc + pacOffset
  let today3am := nowPac - nowPac % DAY + RESET_MINUTE
  if nowPac < today3am then today3am - DAY else today3am

/-- The reset anchor as an absolute UTC instant. -/
def anchorInstant (nowUtc : Int) : Int :=
  get_last_3am_pacific nowUtc - pacOffset

/-- Model of `can_start_run` (gnk_bot.py lines 167-183): count the player's stored
run starts whose instant falls strictly after the last 3 AM Pacific anchor
(each stamp is converted to Pacific for the comparison, which preserves the
instant order) and allow a new run iff the count is below
`MAX_RUNS_PER_DAY`. -/
def can_start_run (userRuns : List TS) (nowUtc : Int) : Bool :=
  let cutoff := get_last_3am_pacific nowUtc
  let count := userRuns.foldl
    (fun c ts => if cutoff < ts.instant + pacOffset then c + 1 else c) 0
  count < MAX_RUNS_PER_DAY

-- Association lists model the JSON dicts (current_runs.json keyed by user
-- id, completed_runs.json keyed by run id) and Python dicts: lookup finds
-- the first binding, assignment replaces an existing binding in place or
-- appends a fresh one at the end (insertion order), deletion removes the
-- binding.

def alookup {κ ν : Type} [DecidableEq κ] (k : κ) : List (κ × ν) → Option ν
  | [] => none
  | e :: t => if e.1 = k then some e.2 else alookup k t

def aset {κ ν : Type} [DecidableEq κ] (k : κ) (v : ν) : List (κ × ν) → List (κ × ν)
  | [] => [(k, v)]
  | e :: t => if e.1 = k then (k, v) :: t else e :: aset k v t

def aerase {κ ν : Type} [DecidableEq κ] (k : κ) : List (κ × ν) → List (κ × ν)
  | [] => []
  | e :: t => if e.1 = k then t else e :: aerase k t

/-- Keys are pairwise distinct, as they are in a Python dict / JSON object. -/
def KeysNodup {κ ν : Type} (l : List (κ × ν)) : Prop := (l.map Prod.fst).Nodup

instance {κ ν : Type} [DecidableEq κ] (l : List (κ × ν)) : Decidable (KeysNodup l) :=
  inferInstanceAs (Decidable (l.map Prod.fst).Nodup)

/-- One recorded outcome inside a run: the dict
`{"opp": ..., "res": "W"|"L", "type": ...}` appended by `process_results`,
`DisputeResolutionView.resolve` and `force_result`. -/
structure MatchResult where
  opp : Nat
  res : String
  type : String
deriving DecidableEq, Repr

/-- One run record as stored in current_runs.json (gnk_bot.py lines 619-626);
`user_id` and `ended_at` are absent (`none`) until `archive_run` adds them. -/
structure Run where
  name : String
  run_id : String
  leader : String
  base : String
  opponents_played : List Nat
  match_results : List MatchResult
  user_id : Option Nat
  ended_at : Option Int
deriving DecidableEq, Repr

/-- The durable bot state: active runs keyed by user id, completed runs
keyed by run id, the in-memory player queue (join order preserved, as in a
Python dict) and the per-player run-start history. -/
structure BotState where
  runs : List (Nat × Run)
  completed : List (String × Run)
  player_queue : List (Nat × Int)
  history : List (Nat × List TS)
deriving DecidableEq, Repr

def initState : BotState :=
  { runs := [], completed := [], player_queue := [], history := [] }

def historyOf (s : BotState) (uid : Nat) : List TS :=
  (alookup uid s.history).getD []

/-- The run after appending one opponent / one match result, as done by the
paired `append` calls in `process_results`, `resolve` and `force_result`. -/
def appendedRun (r : Run) (opp : Nat) (res mtype : String) : Run :=
  { r with opponents_played := r.opponents_played ++ [opp],
           match_results := r.match_results ++ [{ opp := opp, res := res, type := mtype }] }

/-- The record written into completed_runs.json: `archive_run` stamps
`ended_at` and `user_id` and changes nothing else. -/
def archivedRun (r : Run) (uid : Nat) (now : Int) : Run :=
  { r with ended_at := some now, user_id := some uid }

/-- Model of `archive_run` (gnk_bot.py lines 193-224): move the player's active run
to the completed collection, stamping `ended_at`/`user_id`, and drop the
player from the queue; a no-op returning None when the player has no active
run.  The trophy announcement is notification-only and not modelled. -/
def archive_run (user_id : Nat) (now : Int) (s : BotState) : BotState × Option Run :=
  match alookup user_id s.runs with
  | none => (s, none)
  | some run =>
    ({ runs := aerase user_id s.runs,
       completed := aset (archivedRun run user_id now).run_id (archivedRun run user_id now) s.completed,
       player_queue := s.player_queue.filter (fun e => decide (e.1 ≠ user_id)),
       history := s.history }, some (archivedRun run user_id now))

/-- One `runs[str(uid)][...].append(...)` pair: returns none on a missing
key (Python KeyError, which aborts before the dict is saved to disk, so the
durable state stays unchanged). -/
def appendOne (uid opp : Nat) (res mtype : String) (runs : List (Nat × Run)) :
    Option (List (Nat × Run)) :=
  match alookup uid runs with
  | none => none
  | some r => some (aset uid (appendedRun r opp res mtype) runs)

/-- The symmetric append performed by every result-recording path: first the
winner's "W" entry, then the loser's "L" entry (sequential, like the Python
loop over the shared dict). -/
def appendBoth (winner loser : Nat) (mtype : String) (s : BotState) : Option BotState :=
  match appendOne winner loser "W" mtype s.runs with
  | none => none
  | some r1 =>
    match appendOne loser winner "L" mtype r1 with
    | none => none
    | some r2 => some { s with runs := r2 }

/-- The per-player completion check after recording
(`if len(runs[str(uid)]["match_results"]) >= MATCH_LIMIT: await archive_run(uid)`). -/
def archiveIfDone (uid : Nat) (now : Int) (s : BotState) : BotState :=
  match alookup uid s.runs with
  | none => s
  | some r =>
    if MATCH_LIMIT ≤ r.match_results.length then (archive_run uid now s).1 else s

/-- The shared result-recording core: append both entries, save, then check
both players (winner first) for run completion. -/
def recordCore (winner loser : Nat) (mtype : String) (now : Int) (s : BotState) :
    Option BotState :=
  match appendBoth winner loser mtype s with
  | none => none
  | some s1 => some (archiveIfDone loser now (archiveIfDone winner now s1))

/-- Rejection reasons for a confirm/dispute attempt: an interaction on an
already stopped view is refused by the transport (the spec's
StateConflictError for "session already resolved"); a click by anyone but
the reported loser is refused by the actor check. -/
inductive SessionError
  | stateConflict
  | wrongActor
deriving DecidableEq, Repr

/-- The `ResultView` session for one reported outcome: the reported winner
and loser, the match type tag ("queue" or "local"), the `confirmed` flag and
the stopped state set by `self.stop()`. -/
structure ResultView where
  winner : Nat
  loser : Nat
  match_type : String
  confirmed : Bool
  stopped : Bool
deriving DecidableEq, Repr

/-- Model of `ResultView.process_results` (gnk_bot.py lines 276-308): set
`confirmed`, append both entries, save, archive completed runs, stop the
view.  The `is_auto` argument of the Python method only selects the DM text
and is not modelled.  On a KeyError (a player without an active run) the
save is never reached, so the durable state is unchanged and the view is
not stopped. -/
def ResultView.process_results (v : ResultView) (now : Int) (s : BotState) :
    ResultView × BotState :=
  match recordCore v.winner v.loser v.match_type now s with
  | none => ({ v with confirmed := true }, s)
  | some s1 => ({ v with confirmed := true, stopped := true }, s1)

/-- The Confirm button (gnk_bot.py lines 310-317): refused once the view is
stopped; only the reported loser may confirm; otherwise runs
`process_results`. -/
def ResultView.confirm (v : ResultView) (actor : Nat) (now : Int) (s : BotState) :
    ResultView × BotState × Option SessionError :=
  if v.stopped then (v, s, some .stateConflict)
  else if actor = v.loser then
    ((v.process_results now s).1, (v.process_results now s).2, none)
  else (v, s, some .wrongActor)

/-- The Dispute button (gnk_bot.py lines 319-346): refused once the view is
stopped; only the reported loser may dispute; otherwise sets `confirmed`,
stops the view and escalates to admin arbitration without touching any run. -/
def ResultView.dispute (v : ResultView) (actor : Nat) (s : BotState) :
    ResultView × BotState × Option SessionError :=
  if v.stopped then (v, s, some .stateConflict)
  else if actor = v.loser then
    ({ v with confirmed := true, stopped := true }, s, none)
  else (v, s, some .wrongActor)

/-- Model of `ResultView.on_timeout` (gnk_bot.py lines 348-352): after the 60 second
window, auto-confirm unless a button already resolved the session. -/
def ResultView.on_timeout (v : ResultView) (now : Int) (s : BotState) :
    ResultView × BotState :=
  if v.confirmed then (v, s) else v.process_results now s

/-- Model of `DisputeResolutionView.resolve` (gnk_bot.py lines 388-420): refuse and
change nothing when either player no longer has an active run; otherwise
record the admin's chosen result with type "admin_dispute" and archive
completed runs. -/
def DisputeResolutionView.resolve (winner loser : Nat) (now : Int) (s : BotState) :
    BotState × Bool :=
  if (alookup winner s.runs).isNone ∨ (alookup loser s.runs).isNone then (s, false)
  else
    match recordCore winner loser "admin_dispute" now s with
    | none => (s, false)
    | some s1 => (s1, true)

/-- Model of `force_result` (gnk_bot.py lines 896-937): admin-only manual result;
requires both players to have active runs and forbids self-matching, then
records with type "admin_forced" and archives completed runs. -/
def force_result (winner_id loser_id : Nat) (now : Int) (s : BotState) :
    BotState × Bool :=
  if (alookup winner_id s.runs).isNone ∨ (alookup loser_id s.runs).isNone then (s, false)
  else if winner_id = loser_id then (s, false)
  else
    match recordCore winner_id loser_id "admin_forced" now s with
    | none => (s, false)
    | some s1 => (s1, true)

inductive ReactivateOutcome
  | notFound
  | noUserId
  | stateConflict
  | ok
deriving DecidableEq, Repr

/-- Model of `reactivate_run` (gnk_bot.py lines 1005-1052): admin restore of an
archived run.  Fails when the run id is not archived, when the archived
record carries no stored user id, or when that user already has an active
run (the popped record is put back, so the durable state is unchanged);
otherwise the record moves back to the active collection unmodified. -/
def reactivate_run (run_id : String) (s : BotState) : BotState × ReactivateOutcome :=
  match alookup run_id s.completed with
  | none => (s, .notFound)
  | some run_data =>
    match run_data.user_id with
    | none => (s, .noUserId)
    | some uid =>
      if (alookup uid s.runs).isSome then (s, .stateConflict)
      else ({ s with runs := aset uid run_data s.runs,
                     completed := aerase run_id s.completed }, .ok)

/-- Model of `ReactivationApprovalView.approve` (gnk_bot.py lines 232-255): the
player-requested reactivation path.  It only checks that the run id is
still archived, then writes the record over whatever active run the
requesting user currently has. -/
def ReactivationApprovalView.approve (user_id : Nat) (run_id : String) (s : BotState) :
    BotState × Bool :=
  match alookup run_id s.completed with
  | none => (s, false)
  | some run_data =>
    ({ s with runs := aset user_id run_data s.runs,
              completed := aerase run_id s.completed }, true)

/-- Model of `cancel_run` (gnk_bot.py lines 939-967): delete the player's active run
without archiving, drop the player from the queue and clear the player's
daily-limit history. -/
def cancel_run (user_id : Nat) (s : BotState) : BotState × Bool :=
  if (alookup user_id s.runs).isNone then (s, false)
  else
    ({ runs := aerase user_id s.runs,
       completed := s.completed,
       player_queue := s.player_queue.filter (fun e => decide (e.1 ≠ user_id)),
       history := aerase user_id s.history }, true)

/-- Model of `delete_run` (gnk_bot.py lines 1110-1136): remove a run record by run
id, from the completed collection if present there, else the first active
run carrying that id.  The player queue is not touched. -/
def delete_run (run_id : String) (s : BotState) : BotState × Bool :=
  if (alookup run_id s.completed).isSome then
    ({ s with completed := aerase run_id s.completed }, true)
  else
    match s.runs.find? (fun e => e.2.run_id == run_id) with
    | some e => ({ s with runs := aerase e.1 s.runs }, true)
    | none => (s, false)

/-- Run registration, the composite of the Start button guards (an existing
active run or a failed `can_start_run` rejects, gnk_bot.py lines 446-456)
and the JSON submission that creates the run and logs the start timestamp
(lines 604-642, 185-190).  The timestamp is stored as an aware UTC stamp. -/
def register (uid : Nat) (uname run_id leader base : String) (nowU : Int) (s : BotState) :
    BotState × Bool :=
  if (alookup uid s.runs).isSome then (s, false)
  else if can_start_run (historyOf s uid) nowU then
    ({ s with
        runs := aset uid
          { name := uname, run_id := run_id, leader := leader, base := base,
            opponents_played := [], match_results := [],
            user_id := none, ended_at := none } s.runs,
        history := aset uid (historyOf s uid ++ [{ value := nowU, offset := some 0 }]) s.history },
      true)
  else (s, false)

/-- The queue order used by `check_for_match`: ascending join time. -/
def byTime : (Nat × Int) → (Nat × Int) → Prop := fun a b => a.2 ≤ b.2

instance : DecidableRel byTime := fun a b => inferInstanceAs (Decidable (a.2 ≤ b.2))

instance : IsTotal (Nat × Int) byTime := ⟨fun a b => le_total a.2 b.2⟩

instance : IsTrans (Nat × Int) byTime := ⟨fun _ _ _ h1 h2 => le_trans h1 h2⟩

/-- Model of `sorted(player_queue.items(), key=lambda item: item[1])`: Python's sort
is stable, and stable sorts are extensionally unique, so insertion sort is a
faithful model. -/
def sortedQueue (s : BotState) : List (Nat × Int) :=
  s.player_queue.insertionSort byTime

def sortedQueueIds (s : BotState) : List Nat :=
  (sortedQueue s).map Prod.fst

/-- The double scan of `check_for_match` (gnk_bot.py lines 522-536) over the
wait-ordered ids: for the earliest player `a`, the first later player not in
`a`'s `opponents_played` is the pair; with no such partner the scan moves to
the next player.  A missing active run for a scanned player raises KeyError
(`.error`), aborting the whole call before any queue mutation. -/
def findPairAux (runs : List (Nat × Run)) : List Nat → Except Unit (Option (Nat × Nat))
  | [] => .ok none
  | [_] => .ok none
  | a :: b :: rest =>
    match alookup a runs with
    | none => .error ()
    | some r =>
      match (b :: rest).find? (fun y => decide (y ∉ r.opponents_played)) with
      | some q => .ok (some (a, q))
      | none => findPairAux runs (b :: rest)

/-- Model of `check_for_match`: run the scan on the wait-ordered queue; on success
remove both selected players from the queue (in the same call, before the
match is reported) and return the pair. -/
def check_for_match (s : BotState) : BotState × Option (Nat × Nat) :=
  match findPairAux s.runs (sortedQueueIds s) with
  | .error _ => (s, none)
  | .ok none => (s, none)
  | .ok (some (p1, p2)) =>
    ({ s with player_queue :=
        s.player_queue.filter (fun e => decide (e.1 ≠ p1 ∧ e.1 ≠ p2)) }, some (p1, p2))

/-- Model of `join_queue_logic` (gnk_bot.py lines 489-514): record the join time at
the end of the queue, then immediately try to match. -/
def join_queue (uid : Nat) (now : Int) (s : BotState) : BotState :=
  (check_for_match { s with player_queue := s.player_queue ++ [(uid, now)] }).1

/-- The ENTER_QUEUE command (gnk_bot.py lines 810-837): requires an active
run, and is a no-op when the player is already queued. -/
def enter_queue (uid : Nat) (now : Int) (s : BotState) : BotState :=
  if (alookup uid s.runs).isSome then
    if uid ∈ s.player_queue.map Prod.fst then s
    else join_queue uid now s
  else s

/-- The STOP command (gnk_bot.py lines 680-687): leave the queue. -/
def stop_queue (uid : Nat) (s : BotState) : BotState :=
  { s with player_queue := s.player_queue.filter (fun e => decide (e.1 ≠ uid)) }

/-- The periodic `queue_cleanup` task (gnk_bot.py lines 76-91): evict
entries that have waited more than 60 minutes. -/
def queue_cleanup (now : Int) (s : BotState) : BotState :=
  { s with player_queue := s.player_queue.filter (fun e => decide (now - e.2 ≤ 60)) }

-- Spec-side predicates

/-- Spec side: `b` is the first element of `l` outside `opps` (the inner
scan's selection). -/
def IsFirstInner (opps : List Nat) (l : List Nat) (b : Nat) : Prop :=
  ∃ l1 l2, l = l1 ++ b :: l2 ∧ b ∉ opps ∧ ∀ y ∈ l1, y ∈ opps

/-- Spec side, following the spec's pairing algorithm: scanning the
wait-ordered ids, the earliest player with an admissible later partner is
selected together with the earliest such partner; players whose every later
partner has already been faced are skipped. -/
def IsFirstPair (runs : List (Nat × Run)) : List Nat → Nat → Nat → Prop
  | [], _, _ => False
  | a :: rest, p, q =>
    (p = a ∧ ∃ r, alookup a runs = some r ∧ IsFirstInner r.opponents_played rest q)
    ∨ ((∃ r, alookup a runs = some r ∧ ∀ y ∈ rest, y ∈ r.opponents_played)
        ∧ IsFirstPair runs rest p q)

/-- Where one player's data ends up after a result is recorded for them:
either the run reached `MATCH_LIMIT` and was archived in the same call (gone
from the active collection, stored under its run id with `ended_at` and
`user_id` stamped, dropped from the queue), or it stays active unchanged
except for the appended entries. -/
def playerOutcome (sNew : BotState) (uid : Nat) (rNew : Run) (now : Int) : Prop :=
  if MATCH_LIMIT ≤ rNew.match_results.length then
    alookup uid sNew.runs = none
    ∧ alookup rNew.run_id sNew.completed = some (archivedRun rNew uid now)
    ∧ uid ∉ sNew.player_queue.map Prod.fst
  else alookup uid sNew.runs = some rNew

/-- The per-player conclusion of claim C1 for one recording call: lengths
stay bounded when they were below the limit before the call, and reaching
the limit archives and dequeues within the same call. -/
def C1Post (sNew : BotState) (uid opp : Nat) (pre : Run) (res mtype : String) (now : Int) : Prop :=
  (pre.match_results.length < MATCH_LIMIT →
      (appendedRun pre opp res mtype).match_results.length ≤ MATCH_LIMIT)
  ∧ (MATCH_LIMIT ≤ (appendedRun pre opp res mtype).match_results.length →
      alookup uid sNew.runs = none
      ∧ alookup pre.run_id sNew.completed
          = some (archivedRun (appendedRun pre opp res mtype) uid now)
      ∧ uid ∉ sNew.player_queue.map Prod.fst)
  ∧ ((appendedRun pre opp res mtype).match_results.length < MATCH_LIMIT →
      alookup uid sNew.runs = some (appendedRun pre opp res mtype))

/-- Invariant 5 of the spec: every queued player has an active run. -/
def QueuedHaveRuns (s : BotState) : Prop :=
  ∀ e ∈ s.player_queue, (alookup e.1 s.runs).isSome = true

/-- States reachable from the empty initial state through the modelled user
and admin events.  Session-driven recording (confirm / timeout / dispute
resolution) is omitted; every listed step is realizable in the Python
program, so this relation under-approximates the real reachable set, which
is sound for exhibiting reachable states. -/
inductive Reachable : BotState → Prop where
  | init : Reachable initState
  | stepRegister (uid : Nat) (uname rid leader base : String) (now : Int) {s : BotState} :
      Reachable s → Reachable (register uid uname rid leader base now s).1
  | stepEnterQueue (uid : Nat) (now : Int) {s : BotState} :
      Reachable s → Reachable (enter_queue uid now s)
  | stepStopQueue (uid : Nat) {s : BotState} :
      Reachable s → Reachable (stop_queue uid s)
  | stepQueueCleanup (now : Int) {s : BotState} :
      Reachable s → Reachable (queue_cleanup now s)
  | stepFinish (uid : Nat) (now : Int) {s : BotState} :
      Reachable s → Reachable (archive_run uid now s).1
  | stepForceResult (w l : Nat) (now : Int) {s : BotState} :
      Reachable s → Reachable (force_result w l now s).1
  | stepCancelRun (uid : Nat) {s : BotState} :
      Reachable s → Reachable (cancel_run uid s).1
  | stepReactivateRun (rid : String) {s : BotState} :
      Reachable s → Reachable (reactivate_run rid s).1
  | stepApprove (uid : Nat) (rid : String) {s : BotState} :
      Reachable s → Reachable (ReactivationApprovalView.approve uid rid s).1
  | stepDeleteRun (rid : String) {s : BotState} :
      Reachable s → Reachable (delete_run rid s).1

-- Concrete states used to evaluate the theorems.

def wRun1 : Run :=
  { name := "P1", run_id := "r1", leader := "LeadA", base := "BaseA",
    opponents_played := [], match_results := [], user_id := none, ended_at := none }

def wRun2 : Run :=
  { name := "P2", run_id := "r2", leader := "LeadB", base := "BaseB",
    opponents_played := [], match_results := [], user_id := none, ended_at := none }

def wState : BotState :=
  { runs := [(1, wRun1), (2, wRun2)], completed := [], player_queue := [], history := [] }

def qState : BotState :=
  { runs := [(1, wRun1), (2, wRun2)], completed := [],
    player_queue := [(1, 0), (2, 5)], history := [] }

/-- An archived run whose owner 7 is stored, with `ended_at` stamped. -/
def c6ArchRun : Run :=
  { name := "P7", run_id := "ra7", leader := "L7", base := "B7",
    opponents_played := [9], match_results := [{ opp := 9, res := "W", type := "queue" }],
    user_id := some 7, ended_at := some 50 }

/-- A different, currently active run of the same owner 7. -/
def c6NewRun : Run :=
  { name := "P7", run_id := "rb7", leader := "L8", base := "B8",
    opponents_played := [], match_results := [], user_id := none, ended_at := none }

def c6State : BotState :=
  { runs := [(7, c6NewRun)], completed := [("ra7", c6ArchRun)],
    player_queue := [], history := [] }

def c6StateNoActive : BotState :=
  { runs := [], completed := [("ra7", c6ArchRun)], player_queue := [], history := [] }

-- A reachable run of events in which a completed (3-match) run is
-- reactivated and then receives a fourth result.

def c1s1 : BotState := (register 1 "A" "ra" "ldr" "bs" 0 initState).1
def c1s2 : BotState := (register 2 "B" "rb" "ldr" "bs" 0 c1s1).1
def c1s3 : BotState := (register 3 "C" "rc" "ldr" "bs" 0 c1s2).1
def c1s4 : BotState := (register 4 "D" "rd" "ldr" "bs" 0 c1s3).1
def c1s5 : BotState := (force_result 1 2 10 c1s4).1
def c1s6 : BotState := (force_result 1 3 20 c1s5).1
def c1s7 : BotState := (force_result 1 4 30 c1s6).1
def c1s8 : BotState := (reactivate_run "ra" c1s7).1
def c1s9 : BotState := (register 5 "E" "re" "ldr" "bs" 40 c1s8).1
def c1s10 : BotState := (force_result 1 5 50 c1s9).1

-- A reachable run of events in which the same forced result is recorded
-- twice, duplicating the opponent entry.

def c8s1 : BotState := (register 1 "A" "r1" "ldr" "bs" 0 initState).1
def c8s2 : BotState := (register 2 "B" "r2" "ldr" "bs" 0 c8s1).1
def c8s3 : BotState := (force_result 1 2 10 c8s2).1
def c8s4 : BotState := (force_result 1 2 20 c8s3).1

-- A reachable run of events in which a queued player's active run is
-- deleted by run id, leaving the player queued without a run.

def c9s1 : BotState := (register 1 "A" "r1" "ldr" "bs" 0 initState).1
def c9s2 : BotState := enter_queue 1 5 c9s1
def c9s3 : BotState := (delete_run "r1" c9s2).1

-- THEOREMS

theorem alookup_aset_self {κ ν : Type} [DecidableEq κ] (k : κ) (v : ν) :
    ∀ l : List (κ × ν), alookup k (aset k v l) = some v := by
  intro l
  induction l with
  | nil => simp [aset, alookup]
  | cons e t ih =>
    by_cases h : e.1 = k
    · simp [aset, h, alookup]
    · simp [aset, h, alookup, ih]

theorem alookup_aset_ne {κ ν : Type} [DecidableEq κ] {k k' : κ} (v : ν) (h : k' ≠ k) :
    ∀ l : List (κ × ν), alookup k' (aset k v l) = alookup k' l := by
  intro l
  induction l with
  | nil => simp [aset, alookup, Ne.symm h]
  | cons e t ih =>
    by_cases he : e.1 = k
    · simp [aset, he, alookup, Ne.symm h]
    · simp [aset, he, alookup, ih]

theorem alookup_aerase_ne {κ ν : Type} [DecidableEq κ] {k k' : κ} (h : k' ≠ k) :
    ∀ l : List (κ × ν), alookup k' (aerase k l) = alookup k' l := by
  intro l
  induction l with
  | nil => simp [aerase]
  | cons e t ih =>
    by_cases he : e.1 = k
    · have hne : ¬ e.1 = k' := by rw [he]; exact Ne.symm h
      simp [aerase, he, alookup, hne, Ne.symm h]
    · simp [aerase, he, alookup, ih]

theorem alookup_eq_none_of_not_mem {κ ν : Type} [DecidableEq κ] {k : κ} :
    ∀ {l : List (κ × ν)}, k ∉ l.map Prod.fst → alookup k l = none := by
  intro l
  induction l with
  | nil => intro _; rfl
  | cons e t ih =>
    intro h
    simp only [List.map_cons, List.mem_cons] at h
    push_neg at h
    rw [alookup, if_neg (fun he => h.1 he.symm), ih h.2]

theorem alookup_aerase_self {κ ν : Type} [DecidableEq κ] {k : κ} :
    ∀ {l : List (κ × ν)}, KeysNodup l → alookup k (aerase k l) = none := by
  intro l
  induction l with
  | nil => intro _; rfl
  | cons e t ih =>
    intro h
    rw [KeysNodup, List.map_cons, List.nodup_cons] at h
    by_cases he : e.1 = k
    · rw [aerase, if_pos he]
      exact alookup_eq_none_of_not_mem (he ▸ h.1)
    · rw [aerase, if_neg he, alookup, if_neg he]
      exact ih h.2

theorem map_fst_aset_of_mem {κ ν : Type} [DecidableEq κ] {k : κ} (v : ν) :
    ∀ {l : List (κ × ν)}, (alookup k l).isSome → (aset k v l).map Prod.fst = l.map Prod.fst := by
  intro l
  induction l with
  | nil => intro h; simp [alookup] at h
  | cons e t ih =>
    intro h
    by_cases he : e.1 = k
    · simp [aset, he]
    · rw [alookup, if_neg he] at h
      simp [aset, he, ih h]

theorem KeysNodup_aset {κ ν : Type} [DecidableEq κ] {k : κ} {v : ν} {l : List (κ × ν)}
    (hN : KeysNodup l) (hm : (alookup k l).isSome) : KeysNodup (aset k v l) := by
  rw [KeysNodup, map_fst_aset_of_mem v hm]
  exact hN

theorem aerase_sublist {κ ν : Type} [DecidableEq κ] (k : κ) :
    ∀ l : List (κ × ν), List.Sublist (aerase k l) l := by
  intro l
  induction l with
  | nil => simp [aerase]
  | cons e t ih =>
    by_cases he : e.1 = k
    · rw [aerase, if_pos he]
      exact List.sublist_cons_self e t
    · rw [aerase, if_neg he]
      exact ih.cons₂ e

theorem KeysNodup_aerase {κ ν : Type} [DecidableEq κ] {k : κ} {l : List (κ × ν)}
    (hN : KeysNodup l) : KeysNodup (aerase k l) :=
  hN.sublist ((aerase_sublist k l).map Prod.fst)

theorem not_mem_map_fst_filter_self (x : Nat) (l : List (Nat × Int)) :
    x ∉ (l.filter fun e => decide (e.1 ≠ x)).map Prod.fst := by
  intro h
  rcases List.mem_map.mp h with ⟨e, he, hfst⟩
  rcases List.mem_filter.mp he with ⟨_, hdec⟩
  rw [decide_eq_true_eq] at hdec
  exact hdec hfst

theorem not_mem_map_fst_filter_of {p : Nat × Int → Bool} {l : List (Nat × Int)} {x : Nat}
    (h : x ∉ l.map Prod.fst) : x ∉ (l.filter p).map Prod.fst := by
  intro hm
  rcases List.mem_map.mp hm with ⟨e, he, hfst⟩
  exact h (List.mem_map.mpr ⟨e, List.mem_of_mem_filter he, hfst⟩)

theorem appendBoth_eq {s : BotState} {w l : Nat} {wr lr : Run} (mtype : String) (hwl : w ≠ l)
    (hw : alookup w s.runs = some wr) (hl : alookup l s.runs = some lr) :
    appendBoth w l mtype s
      = some { s with runs := aset l (appendedRun lr w "L" mtype)
                        (aset w (appendedRun wr l "W" mtype) s.runs) } := by
  have h2 : alookup l (aset w (appendedRun wr l "W" mtype) s.runs) = some lr := by
    rw [alookup_aset_ne _ (Ne.symm hwl), hl]
  unfold appendBoth appendOne
  simp only [hw, h2]

theorem archiveIfDone_of_none {s : BotState} {uid : Nat} (now : Int)
    (h : alookup uid s.runs = none) : archiveIfDone uid now s = s := by
  unfold archiveIfDone
  simp only [h]

theorem archiveIfDone_of_lt {s : BotState} {uid : Nat} {r : Run} (now : Int)
    (h : alookup uid s.runs = some r) (hlt : r.match_results.length < MATCH_LIMIT) :
    archiveIfDone uid now s = s := by
  unfold archiveIfDone
  simp only [h]
  rw [if_neg (Nat.not_le.mpr hlt)]

theorem archiveIfDone_of_ge {s : BotState} {uid : Nat} {r : Run} (now : Int)
    (h : alookup uid s.runs = some r) (hge : MATCH_LIMIT ≤ r.match_results.length) :
    archiveIfDone uid now s =
      { runs := aerase uid s.runs,
        completed := aset (archivedRun r uid now).run_id (archivedRun r uid now) s.completed,
        player_queue := s.player_queue.filter (fun e => decide (e.1 ≠ uid)),
        history := s.history } := by
  unfold archiveIfDone archive_run
  simp only [h]
  rw [if_pos hge]

theorem appendedRun_run_id (r : Run) (opp : Nat) (res mtype : String) :
    (appendedRun r opp res mtype).run_id = r.run_id := rfl

theorem archivedRun_run_id (r : Run) (uid : Nat) (now : Int) :
    (archivedRun r uid now).run_id = r.run_id := rfl

theorem appendedRun_length (r : Run) (opp : Nat) (res mtype : String) :
    (appendedRun r opp res mtype).match_results.length = r.match_results.length + 1 := by
  simp [appendedRun]

/-- The shared behaviour of every result-recording path: with both players
active and distinct, the symmetric entries are appended, each player whose
run thereby reaches `MATCH_LIMIT` is archived and dequeued in the same call,
all other players' runs are untouched, and the history is untouched. -/
theorem recordCore_spec {s : BotState} {w l : Nat} {wr lr : Run} (mtype : String) (now : Int)
    (hN : KeysNodup s.runs) (hwl : w ≠ l)
    (hw : alookup w s.runs = some wr) (hl : alookup l s.runs = some lr)
    (hrid : wr.run_id ≠ lr.run_id) :
    ∃ sN, recordCore w l mtype now s = some sN
      ∧ playerOutcome sN w (appendedRun wr l "W" mtype) now
      ∧ playerOutcome sN l (appendedRun lr w "L" mtype) now
      ∧ (∀ u, u ≠ w → u ≠ l → alookup u sN.runs = alookup u s.runs)
      ∧ sN.history = s.history := by
  have hrec : recordCore w l mtype now s
      = some (archiveIfDone l now (archiveIfDone w now
          { s with runs := aset l (appendedRun lr w "L" mtype)
                     (aset w (appendedRun wr l "W" mtype) s.runs) })) := by
    unfold recordCore
    rw [appendBoth_eq mtype hwl hw hl]
  set wrA := appendedRun wr l "W" mtype with hwrA
  set lrA := appendedRun lr w "L" mtype with hlrA
  set s1 : BotState := { s with runs := aset l lrA (aset w wrA s.runs) } with hs1
  have hw1 : alookup w s1.runs = some wrA := by
    rw [hs1]
    show alookup w (aset l lrA (aset w wrA s.runs)) = some wrA
    rw [alookup_aset_ne _ hwl, alookup_aset_self]
  have hl1 : alookup l s1.runs = some lrA := by
    rw [hs1]
    exact alookup_aset_self l lrA _
  have hN1 : KeysNodup s1.runs := by
    rw [hs1]
    refine KeysNodup_aset (KeysNodup_aset hN ?_) ?_
    · rw [hw]; rfl
    · rw [alookup_aset_ne _ (Ne.symm hwl), hl]; rfl
  have hother1 : ∀ u, u ≠ w → u ≠ l → alookup u s1.runs = alookup u s.runs := by
    intro u huw hul
    rw [hs1]
    show alookup u (aset l lrA (aset w wrA s.runs)) = alookup u s.runs
    rw [alookup_aset_ne _ hul, alookup_aset_ne _ huw]
  by_cases hWge : MATCH_LIMIT ≤ wrA.match_results.length
  · have e1 := archiveIfDone_of_ge now hw1 hWge
    set s2 : BotState :=
      { runs := aerase w s1.runs,
        completed := aset (archivedRun wrA w now).run_id (archivedRun wrA w now) s1.completed,
        player_queue := s1.player_queue.filter (fun e => decide (e.1 ≠ w)),
        history := s1.history } with hs2
    have hl2 : alookup l s2.runs = some lrA := by
      rw [hs2]
      show alookup l (aerase w s1.runs) = some lrA
      rw [alookup_aerase_ne (Ne.symm hwl), hl1]
    have hN2 : KeysNodup s2.runs := KeysNodup_aerase hN1
    by_cases hLge : MATCH_LIMIT ≤ lrA.match_results.length
    · have e2 := archiveIfDone_of_ge now hl2 hLge
      refine ⟨_, hrec, ?_, ?_, ?_, ?_⟩
      · rw [e1, e2]
        unfold playerOutcome
        rw [if_pos hWge]
        refine ⟨?_, ?_, ?_⟩
        · show alookup w (aerase l s2.runs) = none
          rw [alookup_aerase_ne hwl, hs2]
          exact alookup_aerase_self hN1
        · show alookup wrA.run_id
            (aset (archivedRun lrA l now).run_id (archivedRun lrA l now) s2.completed)
              = some (archivedRun wrA w now)
          rw [archivedRun_run_id, hwrA, hlrA, appendedRun_run_id, appendedRun_run_id,
            alookup_aset_ne _ hrid, hs2]
          show alookup wr.run_id
            (aset (archivedRun wrA w now).run_id (archivedRun wrA w now) s1.completed)
              = some (archivedRun wrA w now)
          rw [archivedRun_run_id, hwrA, appendedRun_run_id, alookup_aset_self]
        · exact not_mem_map_fst_filter_of (not_mem_map_fst_filter_self w _)
      · rw [e1, e2]
        unfold playerOutcome
        rw [if_pos hLge]
        refine ⟨?_, ?_, ?_⟩
        · show alookup l (aerase l s2.runs) = none
          exact alookup_aerase_self hN2
        · show alookup lrA.run_id
            (aset (archivedRun lrA l now).run_id (archivedRun lrA l now) s2.completed)
              = some (archivedRun lrA l now)
          rw [archivedRun_run_id, alookup_aset_self]
        · exact not_mem_map_fst_filter_self l _
      · rw [e1, e2]
        intro u huw hul
        show alookup u (aerase l s2.runs) = alookup u s.runs
        rw [alookup_aerase_ne hul, hs2]
        show alookup u (aerase w s1.runs) = alookup u s.runs
        rw [alookup_aerase_ne huw]
        exact hother1 u huw hul
      · rw [e1, e2]
    · have e2 := archiveIfDone_of_lt now hl2 (Nat.not_le.mp hLge)
      refine ⟨_, hrec, ?_, ?_, ?_, ?_⟩
      · rw [e1, e2]
        unfold playerOutcome
        rw [if_pos hWge]
        refine ⟨?_, ?_, ?_⟩
        · rw [hs2]
          show alookup w (aerase w s1.runs) = none
          exact alookup_aerase_self hN1
        · show alookup wrA.run_id
            (aset (archivedRun wrA w now).run_id (archivedRun wrA w now) s1.completed)
              = some (archivedRun wrA w now)
          rw [archivedRun_run_id, alookup_aset_self]
        · exact not_mem_map_fst_filter_self w _
      · rw [e1, e2]
        unfold playerOutcome
        rw [if_neg hLge]
        exact hl2
      · rw [e1, e2]
        intro u huw hul
        rw [hs2]
        show alookup u (aerase w s1.runs) = alookup u s.runs
        rw [alookup_aerase_ne huw]
        exact hother1 u huw hul
      · rw [e1, e2]
  · have e1 := archiveIfDone_of_lt now hw1 (Nat.not_le.mp hWge)
    by_cases hLge : MATCH_LIMIT ≤ lrA.match_results.length
    · have e2 := archiveIfDone_of_ge now hl1 hLge
      refine ⟨_, hrec, ?_, ?_, ?_, ?_⟩
      · rw [e1, e2]
        unfold playerOutcome
        rw [if_neg hWge]
        show alookup w (aerase l s1.runs) = some wrA
        rw [alookup_aerase_ne hwl]
        exact hw1
      · rw [e1, e2]
        unfold playerOutcome
        rw [if_pos hLge]
        refine ⟨?_, ?_, ?_⟩
        · show alookup l (aerase l s1.runs) = none
          exact alookup_aerase_self hN1
        · show alookup lrA.run_id
            (aset (archivedRun lrA l now).run_id (archivedRun lrA l now) s1.completed)
              = some (archivedRun lrA l now)
          rw [archivedRun_run_id, alookup_aset_self]
        · exact not_mem_map_fst_filter_self l _
      · rw [e1, e2]
        intro u huw hul
        show alookup u (aerase l s1.runs) = alookup u s.runs
        rw [alookup_aerase_ne hul]
        exact hother1 u huw hul
      · rw [e1, e2]
    · have e2 := archiveIfDone_of_lt now hl1 (Nat.not_le.mp hLge)
      refine ⟨_, hrec, ?_, ?_, ?_, ?_⟩
      · rw [e1, e2]
        unfold playerOutcome
        rw [if_neg hWge]
        exact hw1
      · rw [e1, e2]
        unfold playerOutcome
        rw [if_neg hLge]
        exact hl1
      · rw [e1, e2]
        exact hother1
      · rw [e1, e2]

theorem can_start_run_foldl (cutoff : Int) :
    ∀ (l : List TS) (c : Nat),
      l.foldl (fun c ts => if cutoff < ts.instant + pacOffset then c + 1 else c) c
        = c + (l.filter fun ts => decide (cutoff < ts.instant + pacOffset)).length := by
  intro l
  induction l with
  | nil => intro c; simp
  | cons t ts ih =>
    intro c
    by_cases h : cutoff < t.instant + pacOffset
    · simp [List.foldl_cons, List.filter_cons, h, ih]
      omega
    · simp [List.foldl_cons, List.filter_cons, h, ih]

/-- Claim C2: `can_start_run` returns true iff the number of the player's
stored run-start timestamps whose instant is strictly after the reset anchor
is below `MAX_RUNS_PER_DAY`; the anchor is the most recent instant carrying
the fixed local reset time-of-day (3:00 AM at the fixed Pacific offset) that
is at or before now; and a timestamp stored without timezone information is
interpreted as the UTC instant given by its raw value. -/
theorem gnk_C2 (userRuns : List TS) (nowUtc : Int) :
    (can_start_run userRuns nowUtc = true ↔
      (userRuns.filter fun t => decide (anchorInstant nowUtc < t.instant)).length
        < MAX_RUNS_PER_DAY)
    ∧ anchorInstant nowUtc ≤ nowUtc
    ∧ (anchorInstant nowUtc + pacOffset) % DAY = RESET_MINUTE
    ∧ (∀ t : Int, t ≤ nowUtc → (t + pacOffset) % DAY = RESET_MINUTE →
        t ≤ anchorInstant nowUtc)
    ∧ (∀ v : Int, TS.instant ⟨v, none⟩ = v) := by
  have hanchor : ∀ x : Int, anchorInstant x =
      (if x + pacOffset < (x + pacOffset) - (x + pacOffset) % DAY + RESET_MINUTE
       then (x + pacOffset) - (x + pacOffset) % DAY + RESET_MINUTE - DAY
       else (x + pacOffset) - (x + pacOffset) % DAY + RESET_MINUTE) - pacOffset := by
    intro x
    simp only [anchorInstant, get_last_3am_pacific]
  refine ⟨?_, ?_, ?_, ?_, fun v => rfl⟩
  · simp only [can_start_run, can_start_run_foldl, decide_eq_true_eq, Nat.zero_add]
    have hpred : ∀ t : TS,
        (decide (get_last_3am_pacific nowUtc < t.instant + pacOffset))
          = (decide (anchorInstant nowUtc < t.instant)) := by
      intro t
      have h : get_last_3am_pacific nowUtc < t.instant + pacOffset ↔
          anchorInstant nowUtc < t.instant := by
        unfold anchorInstant; omega
      simp [h]
    rw [List.filter_congr (fun t _ => hpred t)]
  · rw [hanchor]
    have h1 : 0 ≤ (nowUtc + pacOffset) % DAY := Int.emod_nonneg _ (by decide)
    have h2 : (nowUtc + pacOffset) % DAY < DAY := Int.emod_lt_of_pos _ (by decide)
    unfold pacOffset DAY RESET_MINUTE at *
    split <;> omega
  · rw [hanchor]
    have h3 : ((nowUtc + pacOffset) - (nowUtc + pacOffset) % DAY) % DAY = 0 := by
      unfold DAY
      omega
    unfold pacOffset DAY RESET_MINUTE at *
    split <;> omega
  · intro t ht hmod
    rw [hanchor]
    have h1 : 0 ≤ (nowUtc + pacOffset) % DAY := Int.emod_nonneg _ (by decide)
    have h2 : (nowUtc + pacOffset) % DAY < DAY := Int.emod_lt_of_pos _ (by decide)
    unfold pacOffset DAY RESET_MINUTE at *
    split <;> omega

theorem gnk_C2_witness :
    (can_start_run [⟨500, some 0⟩, ⟨900, none⟩] 1000 = true ↔
      (([⟨500, some 0⟩, ⟨900, none⟩] : List TS).filter
          fun t => decide (anchorInstant 1000 < t.instant)).length < MAX_RUNS_PER_DAY)
    ∧ anchorInstant 1000 ≤ 1000
    ∧ (anchorInstant 1000 + pacOffset) % DAY = RESET_MINUTE
    ∧ (∀ t : Int, t ≤ 1000 → (t + pacOffset) % DAY = RESET_MINUTE →
        t ≤ anchorInstant 1000)
    ∧ (∀ v : Int, TS.instant ⟨v, none⟩ = v) :=
  gnk_C2 [⟨500, some 0⟩, ⟨900, none⟩] 1000

theorem process_results_eq_some {v : ResultView} {now : Int} {s sN : BotState}
    (h : recordCore v.winner v.loser v.match_type now s = some sN) :
    ResultView.process_results v now s = ({ v with confirmed := true, stopped := true }, sN) := by
  unfold ResultView.process_results
  rw [h]

theorem process_results_eq_none {v : ResultView} {now : Int} {s : BotState}
    (h : recordCore v.winner v.loser v.match_type now s = none) :
    ResultView.process_results v now s = ({ v with confirmed := true }, s) := by
  unfold ResultView.process_results
  rw [h]

theorem on_timeout_not_confirmed {v : ResultView} (now : Int) (s : BotState)
    (h : v.confirmed = false) :
    ResultView.on_timeout v now s = ResultView.process_results v now s := by
  unfold ResultView.on_timeout
  rw [h]
  rfl

theorem C1Post_of_playerOutcome {sN : BotState} {uid opp : Nat} {pre : Run}
    {res mtype : String} {now : Int}
    (h : playerOutcome sN uid (appendedRun pre opp res mtype) now) :
    C1Post sN uid opp pre res mtype now := by
  unfold playerOutcome at h
  unfold C1Post
  by_cases hge : MATCH_LIMIT ≤ (appendedRun pre opp res mtype).match_results.length
  · rw [if_pos hge] at h
    refine ⟨?_, fun _ => h, fun hlt => absurd hge (Nat.not_le.mpr hlt)⟩
    intro hpre
    rw [appendedRun_length]
    omega
  · rw [if_neg hge] at h
    refine ⟨?_, fun hge2 => absurd hge2 hge, fun _ => h⟩
    intro hpre
    rw [appendedRun_length]
    omega

/-- Claim C1 (amended): in every result-recording call (admin force_result,
admin dispute resolution, and the queue confirm / timeout path through
`process_results`), a run that held fewer than `MATCH_LIMIT` results before
the call holds at most `MATCH_LIMIT` afterwards, and a run that reaches
`MATCH_LIMIT` (or more) is archived in that same call: removed from the
active collection, stored in the archived collection, and its player
removed from the queue.  The original unconditional bound fails because a
completed run can be reactivated with `MATCH_LIMIT` results already
recorded and then receive another one. -/
theorem gnk_C1 (s : BotState) (w l : Nat) (wr lr : Run) (now : Int) (mt : String)
    (hN : KeysNodup s.runs) (hwl : w ≠ l)
    (hw : alookup w s.runs = some wr) (hl : alookup l s.runs = some lr)
    (hrid : wr.run_id ≠ lr.run_id) :
    (∃ sN, force_result w l now s = (sN, true)
        ∧ C1Post sN w l wr "W" "admin_forced" now
        ∧ C1Post sN l w lr "L" "admin_forced" now)
    ∧ (∃ sN, DisputeResolutionView.resolve w l now s = (sN, true)
        ∧ C1Post sN w l wr "W" "admin_dispute" now
        ∧ C1Post sN l w lr "L" "admin_dispute" now)
    ∧ (∃ sN, (ResultView.on_timeout ⟨w, l, mt, false, false⟩ now s).2 = sN
        ∧ C1Post sN w l wr "W" mt now
        ∧ C1Post sN l w lr "L" mt now) := by
  have hguard : ¬((alookup w s.runs).isNone ∨ (alookup l s.runs).isNone) := by
    simp [hw, hl]
  obtain ⟨sF, hF, pF1, pF2, _, _⟩ := recordCore_spec "admin_forced" now hN hwl hw hl hrid
  obtain ⟨sD, hD, pD1, pD2, _, _⟩ := recordCore_spec "admin_dispute" now hN hwl hw hl hrid
  obtain ⟨sT, hT, pT1, pT2, _, _⟩ := recordCore_spec mt now hN hwl hw hl hrid
  refine ⟨⟨sF, ?_, C1Post_of_playerOutcome pF1, C1Post_of_playerOutcome pF2⟩,
    ⟨sD, ?_, C1Post_of_playerOutcome pD1, C1Post_of_playerOutcome pD2⟩,
    ⟨sT, ?_, C1Post_of_playerOutcome pT1, C1Post_of_playerOutcome pT2⟩⟩
  · unfold force_result
    rw [if_neg hguard, if_neg hwl, hF]
  · unfold DisputeResolutionView.resolve
    rw [if_neg hguard, hD]
  · rw [on_timeout_not_confirmed now s rfl, process_results_eq_some hT]

theorem gnk_C1_witness :
    (∃ sN, force_result 1 2 0 wState = (sN, true)
        ∧ C1Post sN 1 2 wRun1 "W" "admin_forced" 0
        ∧ C1Post sN 2 1 wRun2 "L" "admin_forced" 0)
    ∧ (∃ sN, DisputeResolutionView.resolve 1 2 0 wState = (sN, true)
        ∧ C1Post sN 1 2 wRun1 "W" "admin_dispute" 0
        ∧ C1Post sN 2 1 wRun2 "L" "admin_dispute" 0)
    ∧ (∃ sN, (ResultView.on_timeout ⟨1, 2, "queue", false, false⟩ 0 wState).2 = sN
        ∧ C1Post sN 1 2 wRun1 "W" "queue" 0
        ∧ C1Post sN 2 1 wRun2 "L" "queue" 0) :=
  gnk_C1 wState 1 2 wRun1 wRun2 0 "queue" (by decide) (by decide) rfl rfl (by decide)

/-- Claim C1 counterexample: a reachable sequence of events (four
registrations, three forced results completing player 1's run, admin
reactivation of that completed run, a fifth registration and one more
forced result) produces an archived run carrying more than `MATCH_LIMIT`
match results. -/
theorem gnk_C1_cex :
    Reachable c1s10
      ∧ ∃ r, alookup "ra" c1s10.completed = some r
          ∧ MATCH_LIMIT < r.match_results.length := by
  constructor
  · exact Reachable.stepForceResult 1 5 50
      (Reachable.stepRegister 5 "E" "re" "ldr" "bs" 40
        (Reachable.stepReactivateRun "ra"
          (Reachable.stepForceResult 1 4 30
            (Reachable.stepForceResult 1 3 20
              (Reachable.stepForceResult 1 2 10
                (Reachable.stepRegister 4 "D" "rd" "ldr" "bs" 0
                  (Reachable.stepRegister 3 "C" "rc" "ldr" "bs" 0
                    (Reachable.stepRegister 2 "B" "rb" "ldr" "bs" 0
                      (Reachable.stepRegister 1 "A" "ra" "ldr" "bs" 0
                        Reachable.init)))))))))
  · exact ⟨_, rfl, by decide⟩

/-- Claim C4: once a session is resolved (here: resolved by the loser's
confirm, or by the loser's dispute), any further confirm or dispute attempt
by anyone is rejected with the state conflict error and changes no run data,
and a timeout firing afterwards mutates nothing: the result is recorded
exactly once. -/
theorem gnk_C4 (s : BotState) (w l a : Nat) (wr lr : Run) (mt : String) (now now2 : Int)
    (hN : KeysNodup s.runs) (hwl : w ≠ l)
    (hw : alookup w s.runs = some wr) (hl : alookup l s.runs = some lr)
    (hrid : wr.run_id ≠ lr.run_id) :
    (∃ s1, ResultView.confirm ⟨w, l, mt, false, false⟩ l now s
        = (⟨w, l, mt, true, true⟩, s1, none)
      ∧ ResultView.confirm ⟨w, l, mt, true, true⟩ a now2 s1
          = (⟨w, l, mt, true, true⟩, s1, some SessionError.stateConflict)
      ∧ ResultView.dispute ⟨w, l, mt, true, true⟩ a s1
          = (⟨w, l, mt, true, true⟩, s1, some SessionError.stateConflict)
      ∧ ResultView.on_timeout ⟨w, l, mt, true, true⟩ now2 s1 = (⟨w, l, mt, true, true⟩, s1))
    ∧ (ResultView.dispute ⟨w, l, mt, false, false⟩ l s = (⟨w, l, mt, true, true⟩, s, none)
      ∧ ResultView.confirm ⟨w, l, mt, true, true⟩ a now2 s
          = (⟨w, l, mt, true, true⟩, s, some SessionError.stateConflict)
      ∧ ResultView.dispute ⟨w, l, mt, true, true⟩ a s
          = (⟨w, l, mt, true, true⟩, s, some SessionError.stateConflict)
      ∧ ResultView.on_timeout ⟨w, l, mt, true, true⟩ now2 s = (⟨w, l, mt, true, true⟩, s)) := by
  obtain ⟨sN, hrec, _, _, _, _⟩ := recordCore_spec mt now hN hwl hw hl hrid
  refine ⟨⟨sN, ?_, rfl, rfl, rfl⟩, ?_, rfl, rfl, rfl⟩
  · unfold ResultView.confirm
    rw [if_neg (by simp : ¬((⟨w, l, mt, false, false⟩ : ResultView).stopped = true)),
      if_pos (rfl : l = (⟨w, l, mt, false, false⟩ : ResultView).loser),
      process_results_eq_some hrec]
  · unfold ResultView.dispute
    rw [if_neg (by simp : ¬((⟨w, l, mt, false, false⟩ : ResultView).stopped = true)),
      if_pos (rfl : l = (⟨w, l, mt, false, false⟩ : ResultView).loser)]

theorem gnk_C4_witness :
    (∃ s1, ResultView.confirm ⟨1, 2, "queue", false, false⟩ 2 0 wState
        = (⟨1, 2, "queue", true, true⟩, s1, none)
      ∧ ResultView.confirm ⟨1, 2, "queue", true, true⟩ 2 1 s1
          = (⟨1, 2, "queue", true, true⟩, s1, some SessionError.stateConflict)
      ∧ ResultView.dispute ⟨1, 2, "queue", true, true⟩ 2 s1
          = (⟨1, 2, "queue", true, true⟩, s1, some SessionError.stateConflict)
      ∧ ResultView.on_timeout ⟨1, 2, "queue", true, true⟩ 1 s1
          = (⟨1, 2, "queue", true, true⟩, s1))
    ∧ (ResultView.dispute ⟨1, 2, "queue", false, false⟩ 2 wState
        = (⟨1, 2, "queue", true, true⟩, wState, none)
      ∧ ResultView.confirm ⟨1, 2, "queue", true, true⟩ 2 1 wState
          = (⟨1, 2, "queue", true, true⟩, wState, some SessionError.stateConflict)
      ∧ ResultView.dispute ⟨1, 2, "queue", true, true⟩ 2 wState
          = (⟨1, 2, "queue", true, true⟩, wState, some SessionError.stateConflict)
      ∧ ResultView.on_timeout ⟨1, 2, "queue", true, true⟩ 1 wState
          = (⟨1, 2, "queue", true, true⟩, wState)) :=
  gnk_C4 wState 1 2 2 wRun1 wRun2 "queue" 0 1 (by decide) (by decide) rfl rfl (by decide)

/-- Claim C5 (amended): when the loser neither confirms nor disputes within
the window, `on_timeout` auto-resolves the session crediting the originally
reported winner: exactly one Win entry is appended to the winner's
match_results and exactly one Loss entry to the loser's.  The recorded
`type` tag is the session's original match type ("queue"/"local"), not a
timeout-specific marker: only the notification text distinguishes the
auto-confirmation. -/
theorem gnk_C5 (s : BotState) (v : ResultView) (wr lr : Run) (now : Int)
    (hN : KeysNodup s.runs) (hwl : v.winner ≠ v.loser)
    (hw : alookup v.winner s.runs = some wr) (hl : alookup v.loser s.runs = some lr)
    (hrid : wr.run_id ≠ lr.run_id) (hc : v.confirmed = false) :
    ∃ sN, ResultView.on_timeout v now s = ({ v with confirmed := true, stopped := true }, sN)
      ∧ playerOutcome sN v.winner (appendedRun wr v.loser "W" v.match_type) now
      ∧ playerOutcome sN v.loser (appendedRun lr v.winner "L" v.match_type) now := by
  obtain ⟨sN, hrec, p1, p2, _, _⟩ := recordCore_spec v.match_type now hN hwl hw hl hrid
  exact ⟨sN, by rw [on_timeout_not_confirmed now s hc, process_results_eq_some hrec], p1, p2⟩

theorem gnk_C5_witness :
    ∃ sN, ResultView.on_timeout ⟨1, 2, "queue", false, false⟩ 0 wState
        = (⟨1, 2, "queue", true, true⟩, sN)
      ∧ playerOutcome sN 1 (appendedRun wRun1 2 "W" "queue") 0
      ∧ playerOutcome sN 2 (appendedRun wRun2 1 "L" "queue") 0 :=
  gnk_C5 wState ⟨1, 2, "queue", false, false⟩ wRun1 wRun2 0
    (by decide) (by decide) rfl rfl (by decide) rfl

/-- Claim C5 counterexample: the state produced by the 60-second timeout is
identical to the state produced by a manual confirm of the same session, and
the entry recorded by the timeout carries the plain session tag "queue": no
field of the stored record marks the result as timeout-derived. -/
theorem gnk_C5_cex :
    (ResultView.on_timeout ⟨1, 2, "queue", false, false⟩ 0 wState).2
        = (ResultView.confirm ⟨1, 2, "queue", false, false⟩ 2 0 wState).2.1
    ∧ (∃ r, alookup 1 (ResultView.on_timeout ⟨1, 2, "queue", false, false⟩ 0 wState).2.runs
          = some r ∧ r.match_results = [{ opp := 2, res := "W", type := "queue" }]) :=
  ⟨by decide, ⟨_, rfl, by decide⟩⟩

/-- Claim C7: archiving an active run and then reactivating it by its run id
restores an active run whose match_results, opponents_played, leader, base
and run_id all equal the pre-archival values. -/
theorem archivedRun_user_id (r : Run) (uid : Nat) (now : Int) :
    (archivedRun r uid now).user_id = some uid := rfl

theorem gnk_C7 (s : BotState) (uid : Nat) (run : Run) (now : Int)
    (hN : KeysNodup s.runs) (h : alookup uid s.runs = some run) :
    ∃ sN, reactivate_run run.run_id (archive_run uid now s).1 = (sN, ReactivateOutcome.ok)
      ∧ ∃ r, alookup uid sN.runs = some r
        ∧ r.match_results = run.match_results
        ∧ r.opponents_played = run.opponents_played
        ∧ r.leader = run.leader
        ∧ r.base = run.base
        ∧ r.run_id = run.run_id := by
  have e1 : (archive_run uid now s).1 =
      { runs := aerase uid s.runs,
        completed := aset (archivedRun run uid now).run_id (archivedRun run uid now) s.completed,
        player_queue := s.player_queue.filter (fun e => decide (e.1 ≠ uid)),
        history := s.history } := by
    unfold archive_run
    simp only [h]
  have e2 : alookup run.run_id
      (aset (archivedRun run uid now).run_id (archivedRun run uid now) s.completed)
        = some (archivedRun run uid now) := by
    rw [archivedRun_run_id]
    exact alookup_aset_self run.run_id (archivedRun run uid now) s.completed
  have e3 : alookup uid (aerase uid s.runs) = none := alookup_aerase_self hN
  rw [e1]
  unfold reactivate_run
  simp only [e2, archivedRun_user_id, e3, Option.isSome_none, Bool.false_eq_true, if_false]
  refine ⟨_, rfl, ?_⟩
  exact ⟨archivedRun run uid now,
    alookup_aset_self uid (archivedRun run uid now) (aerase uid s.runs),
    rfl, rfl, rfl, rfl, rfl⟩

theorem gnk_C7_witness :
    ∃ sN, reactivate_run wRun1.run_id (archive_run 1 0 wState).1 = (sN, ReactivateOutcome.ok)
      ∧ ∃ r, alookup 1 sN.runs = some r
        ∧ r.match_results = wRun1.match_results
        ∧ r.opponents_played = wRun1.opponents_played
        ∧ r.leader = wRun1.leader
        ∧ r.base = wRun1.base
        ∧ r.run_id = wRun1.run_id :=
  gnk_C7 wState 1 wRun1 0 (by decide) rfl

/-- Claim C10: admin dispute resolution is atomic with respect to run
existence: if either chosen player has no active run, `resolve` reports an
error and leaves the state untouched; when both are active (and distinct,
with distinct run ids) the symmetric entries are appended to both runs. -/
theorem gnk_C10 :
    (∀ (s : BotState) (w l : Nat) (now : Int),
        (alookup w s.runs = none ∨ alookup l s.runs = none) →
          DisputeResolutionView.resolve w l now s = (s, false))
    ∧ (∀ (s : BotState) (w l : Nat) (wr lr : Run) (now : Int),
        KeysNodup s.runs → w ≠ l →
        alookup w s.runs = some wr → alookup l s.runs = some lr →
        wr.run_id ≠ lr.run_id →
          ∃ sN, DisputeResolutionView.resolve w l now s = (sN, true)
            ∧ playerOutcome sN w (appendedRun wr l "W" "admin_dispute") now
            ∧ playerOutcome sN l (appendedRun lr w "L" "admin_dispute") now) := by
  constructor
  · intro s w l now h
    have hg : (alookup w s.runs).isNone ∨ (alookup l s.runs).isNone := by
      rcases h with h | h <;> simp [h]
    unfold DisputeResolutionView.resolve
    rw [if_pos hg]
  · intro s w l wr lr now hN hwl hw hl hrid
    obtain ⟨sN, hrec, p1, p2, _, _⟩ := recordCore_spec "admin_dispute" now hN hwl hw hl hrid
    have hg : ¬((alookup w s.runs).isNone ∨ (alookup l s.runs).isNone) := by
      simp [hw, hl]
    exact ⟨sN, by unfold DisputeResolutionView.resolve; rw [if_neg hg, hrec], p1, p2⟩

theorem gnk_C10_witness :
    DisputeResolutionView.resolve 1 3 0 wState = (wState, false)
    ∧ ∃ sN, DisputeResolutionView.resolve 1 2 0 wState = (sN, true)
      ∧ playerOutcome sN 1 (appendedRun wRun1 2 "W" "admin_dispute") 0
      ∧ playerOutcome sN 2 (appendedRun wRun2 1 "L" "admin_dispute") 0 :=
  ⟨gnk_C10.1 wState 1 3 0 (Or.inr rfl),
    gnk_C10.2 wState 1 2 wRun1 wRun2 0 (by decide) (by decide) rfl rfl (by decide)⟩

/-- Claim C6 (amended): the admin `reactivate_run` fails with NotFound when
the run id is not archived and with StateConflict when the stored owner
still has an active run, both leaving the state unchanged; on success it
moves the archived record back to the active collection unmodified, so
`ended_at` (and the stored `user_id`) are retained, not cleared.  The
player-approval entry point checks only that the run id is still archived:
on success it moves the unmodified record back, silently replacing whatever
active run the requesting user currently has (no StateConflict check). -/
theorem gnk_C6 (s : BotState) (rid : String) :
    ((alookup rid s.completed = none →
        reactivate_run rid s = (s, ReactivateOutcome.notFound))
    ∧ (∀ rd uid, alookup rid s.completed = some rd → rd.user_id = some uid →
        (alookup uid s.runs).isSome = true →
          reactivate_run rid s = (s, ReactivateOutcome.stateConflict))
    ∧ (∀ rd uid, alookup rid s.completed = some rd → rd.user_id = some uid →
        alookup uid s.runs = none →
          reactivate_run rid s
            = ({ s with runs := aset uid rd s.runs, completed := aerase rid s.completed },
                ReactivateOutcome.ok)
          ∧ alookup uid (reactivate_run rid s).1.runs = some rd))
    ∧ ((alookup rid s.completed = none →
        ∀ uid, ReactivationApprovalView.approve uid rid s = (s, false))
    ∧ (∀ rd uid, alookup rid s.completed = some rd →
        ReactivationApprovalView.approve uid rid s
          = ({ s with runs := aset uid rd s.runs, completed := aerase rid s.completed }, true)
        ∧ alookup uid (ReactivationApprovalView.approve uid rid s).1.runs = some rd)) := by
  refine ⟨⟨?_, ?_, ?_⟩, ?_, ?_⟩
  · intro h
    unfold reactivate_run
    simp only [h]
  · intro rd uid hrd huid hs
    unfold reactivate_run
    simp only [hrd, huid]
    rw [if_pos hs]
  · intro rd uid hrd huid hnone
    have heq : reactivate_run rid s
        = ({ s with runs := aset uid rd s.runs, completed := aerase rid s.completed },
            ReactivateOutcome.ok) := by
      unfold reactivate_run
      simp only [hrd, huid, hnone, Option.isSome_none, Bool.false_eq_true, if_false]
    exact ⟨heq, by rw [heq]; exact alookup_aset_self uid rd s.runs⟩
  · intro h uid
    unfold ReactivationApprovalView.approve
    simp only [h]
  · intro rd uid hrd
    have heq : ReactivationApprovalView.approve uid rid s
        = ({ s with runs := aset uid rd s.runs, completed := aerase rid s.completed }, true) := by
      unfold ReactivationApprovalView.approve
      simp only [hrd]
    exact ⟨heq, by rw [heq]; exact alookup_aset_self uid rd s.runs⟩

theorem gnk_C6_witness :
    reactivate_run "zz" c6State = (c6State, ReactivateOutcome.notFound)
    ∧ reactivate_run "ra7" c6State = (c6State, ReactivateOutcome.stateConflict)
    ∧ reactivate_run "ra7" c6StateNoActive
        = ({ c6StateNoActive with
              runs := aset 7 c6ArchRun c6StateNoActive.runs,
              completed := aerase "ra7" c6StateNoActive.completed }, ReactivateOutcome.ok)
    ∧ ReactivationApprovalView.approve 7 "zz" c6State = (c6State, false)
    ∧ ReactivationApprovalView.approve 7 "ra7" c6State
        = ({ c6State with
              runs := aset 7 c6ArchRun c6State.runs,
              completed := aerase "ra7" c6State.completed }, true) :=
  ⟨(gnk_C6 c6State "zz").1.1 rfl,
    (gnk_C6 c6State "ra7").1.2.1 c6ArchRun 7 rfl rfl rfl,
    ((gnk_C6 c6StateNoActive "ra7").1.2.2 c6ArchRun 7 rfl rfl rfl).1,
    (gnk_C6 c6State "zz").2.1 rfl 7,
    ((gnk_C6 c6State "ra7").2.2 c6ArchRun 7 rfl).1⟩

/-- Claim C6 counterexample: with owner 7 holding a different active run,
the player-approval entry point succeeds (no StateConflictError) and
overwrites the owner's active run; and a successful admin reactivation
restores the record with `ended_at` still set, not cleared. -/
theorem gnk_C6_cex :
    ((ReactivationApprovalView.approve 7 "ra7" c6State).2 = true
      ∧ alookup 7 (ReactivationApprovalView.approve 7 "ra7" c6State).1.runs = some c6ArchRun
      ∧ (ReactivationApprovalView.approve 7 "ra7" c6State).1.runs ≠ c6State.runs)
    ∧ ((reactivate_run "ra7" c6StateNoActive).2 = ReactivateOutcome.ok
      ∧ ∃ r, alookup 7 (reactivate_run "ra7" c6StateNoActive).1.runs = some r
          ∧ r.ended_at ≠ none) := by
  refine ⟨⟨by decide, by decide, by decide⟩, by decide, ?_⟩
  exact ⟨_, rfl, by decide⟩

theorem appendedRun_opponents (r : Run) (opp : Nat) (res mtype : String) :
    (appendedRun r opp res mtype).opponents_played = r.opponents_played ++ [opp] := rfl

theorem nodup_append_single {xs : List Nat} {x : Nat} (h1 : xs.Nodup) (h2 : x ∉ xs) :
    (xs ++ [x]).Nodup := by
  rw [List.nodup_append]
  refine ⟨h1, List.nodup_singleton x, ?_⟩
  intro y hy hyx
  rw [List.mem_singleton] at hyx
  exact h2 (hyx ▸ hy)

/-- Claim C8 (amended): a result-recording call keeps `opponents_played`
duplicate-free provided the two players had not already faced each other in
the current runs; the recorded run of each player is exactly the old run
with the single opponent appended, and all other players' runs are
untouched.  The unconditional claim fails because `force_result` performs no
already-played check and appends unconditionally. -/
theorem gnk_C8 (s : BotState) (w l : Nat) (wr lr : Run) (now : Int) (mt : String)
    (hN : KeysNodup s.runs) (hwl : w ≠ l)
    (hw : alookup w s.runs = some wr) (hl : alookup l s.runs = some lr)
    (hrid : wr.run_id ≠ lr.run_id)
    (hOw : l ∉ wr.opponents_played) (hOl : w ∉ lr.opponents_played)
    (hDw : wr.opponents_played.Nodup) (hDl : lr.opponents_played.Nodup) :
    (appendedRun wr l "W" mt).opponents_played.Nodup
    ∧ (appendedRun lr w "L" mt).opponents_played.Nodup
    ∧ (∃ sN, force_result w l now s = (sN, true)
        ∧ playerOutcome sN w (appendedRun wr l "W" "admin_forced") now
        ∧ playerOutcome sN l (appendedRun lr w "L" "admin_forced") now
        ∧ ∀ u, u ≠ w → u ≠ l → alookup u sN.runs = alookup u s.runs)
    ∧ (∃ sN, DisputeResolutionView.resolve w l now s = (sN, true)
        ∧ playerOutcome sN w (appendedRun wr l "W" "admin_dispute") now
        ∧ playerOutcome sN l (appendedRun lr w "L" "admin_dispute") now
        ∧ ∀ u, u ≠ w → u ≠ l → alookup u sN.runs = alookup u s.runs)
    ∧ (∃ sN, (ResultView.on_timeout ⟨w, l, mt, false, false⟩ now s).2 = sN
        ∧ playerOutcome sN w (appendedRun wr l "W" mt) now
        ∧ playerOutcome sN l (appendedRun lr w "L" mt) now
        ∧ ∀ u, u ≠ w → u ≠ l → alookup u sN.runs = alookup u s.runs) := by
  have hguard : ¬((alookup w s.runs).isNone ∨ (alookup l s.runs).isNone) := by
    simp [hw, hl]
  obtain ⟨sF, hF, pF1, pF2, oF, _⟩ := recordCore_spec "admin_forced" now hN hwl hw hl hrid
  obtain ⟨sD, hD, pD1, pD2, oD, _⟩ := recordCore_spec "admin_dispute" now hN hwl hw hl hrid
  obtain ⟨sT, hT, pT1, pT2, oT, _⟩ := recordCore_spec mt now hN hwl hw hl hrid
  refine ⟨?_, ?_, ⟨sF, ?_, pF1, pF2, oF⟩, ⟨sD, ?_, pD1, pD2, oD⟩, ⟨sT, ?_, pT1, pT2, oT⟩⟩
  · rw [appendedRun_opponents]
    exact nodup_append_single hDw hOw
  · rw [appendedRun_opponents]
    exact nodup_append_single hDl hOl
  · unfold force_result
    rw [if_neg hguard, if_neg hwl, hF]
  · unfold DisputeResolutionView.resolve
    rw [if_neg hguard, hD]
  · rw [on_timeout_not_confirmed now s rfl, process_results_eq_some hT]

theorem gnk_C8_witness :
    (appendedRun wRun1 2 "W" "queue").opponents_played.Nodup
    ∧ (appendedRun wRun2 1 "L" "queue").opponents_played.Nodup
    ∧ (∃ sN, force_result 1 2 0 wState = (sN, true)
        ∧ playerOutcome sN 1 (appendedRun wRun1 2 "W" "admin_forced") 0
        ∧ playerOutcome sN 2 (appendedRun wRun2 1 "L" "admin_forced") 0
        ∧ ∀ u, u ≠ 1 → u ≠ 2 → alookup u sN.runs = alookup u wState.runs)
    ∧ (∃ sN, DisputeResolutionView.resolve 1 2 0 wState = (sN, true)
        ∧ playerOutcome sN 1 (appendedRun wRun1 2 "W" "admin_dispute") 0
        ∧ playerOutcome sN 2 (appendedRun wRun2 1 "L" "admin_dispute") 0
        ∧ ∀ u, u ≠ 1 → u ≠ 2 → alookup u sN.runs = alookup u wState.runs)
    ∧ (∃ sN, (ResultView.on_timeout ⟨1, 2, "queue", false, false⟩ 0 wState).2 = sN
        ∧ playerOutcome sN 1 (appendedRun wRun1 2 "W" "queue") 0
        ∧ playerOutcome sN 2 (appendedRun wRun2 1 "L" "queue") 0
        ∧ ∀ u, u ≠ 1 → u ≠ 2 → alookup u sN.runs = alookup u wState.runs) :=
  gnk_C8 wState 1 2 wRun1 wRun2 0 "queue" (by decide) (by decide) rfl rfl
    (by decide) (by decide) (by decide) (by decide) (by decide)

/-- Claim C8 counterexample: a reachable sequence of events (two
registrations followed by the same forced result twice) leaves player 1's
active run with a duplicated entry in `opponents_played`: `force_result`
never checks `opponents_played` before appending. -/
theorem gnk_C8_cex :
    Reachable c8s4
      ∧ ∃ r, alookup 1 c8s4.runs = some r
          ∧ r.opponents_played = [2, 2] ∧ ¬ r.opponents_played.Nodup := by
  constructor
  · exact Reachable.stepForceResult 1 2 20
      (Reachable.stepForceResult 1 2 10
        (Reachable.stepRegister 2 "B" "r2" "ldr" "bs" 0
          (Reachable.stepRegister 1 "A" "r1" "ldr" "bs" 0 Reachable.init)))
  · exact ⟨_, rfl, by decide, by decide⟩

/-- Claim C9 (amended): joining the queue requires an active run;
`archive_run` and `cancel_run` on a player's active run remove that player
from the queue in the same call; but `delete_run` leaves the queue untouched
in all cases, so deleting a queued player's active run leaves the player
queued without a run. -/
theorem gnk_C9 (s : BotState) :
    (∀ uid (now : Int), alookup uid s.runs = none → enter_queue uid now s = s)
    ∧ (∀ uid (now : Int) r, alookup uid s.runs = some r →
        uid ∉ ((archive_run uid now s).1.player_queue.map Prod.fst))
    ∧ (∀ uid r, alookup uid s.runs = some r →
        uid ∉ ((cancel_run uid s).1.player_queue.map Prod.fst))
    ∧ (∀ rid, (delete_run rid s).1.player_queue = s.player_queue) := by
  refine ⟨?_, ?_, ?_, ?_⟩
  · intro uid now h
    unfold enter_queue
    simp only [h, Option.isSome_none, Bool.false_eq_true, if_false]
  · intro uid now r h
    unfold archive_run
    simp only [h]
    exact not_mem_map_fst_filter_self uid _
  · intro uid r h
    unfold cancel_run
    simp only [h, Option.isNone_some, Bool.false_eq_true, if_false]
    exact not_mem_map_fst_filter_self uid _
  · intro rid
    unfold delete_run
    split
    · rfl
    · split <;> rfl

theorem gnk_C9_witness :
    enter_queue 3 0 wState = wState
    ∧ 1 ∉ ((archive_run 1 0 qState).1.player_queue.map Prod.fst)
    ∧ 1 ∉ ((cancel_run 1 qState).1.player_queue.map Prod.fst)
    ∧ (delete_run "r1" qState).1.player_queue = qState.player_queue :=
  ⟨(gnk_C9 wState).1 3 0 rfl, (gnk_C9 qState).2.1 1 0 wRun1 rfl,
    (gnk_C9 qState).2.2.1 1 wRun1 rfl, (gnk_C9 qState).2.2.2 "r1"⟩

/-- Claim C9 counterexample: a reachable sequence of events (registration,
queue entry, then admin `delete_run` of the player's active run by run id)
leaves player 1 in the matchmaking queue with no active run. -/
theorem gnk_C9_cex :
    Reachable c9s3
      ∧ 1 ∈ c9s3.player_queue.map Prod.fst
      ∧ alookup 1 c9s3.runs = none := by
  refine ⟨?_, by decide, by decide⟩
  exact Reachable.stepDeleteRun "r1"
    (Reachable.stepEnterQueue 1 5
      (Reachable.stepRegister 1 "A" "r1" "ldr" "bs" 0 Reachable.init))

theorem find?_split {α : Type} (p : α → Bool) :
    ∀ {l : List α} {b : α}, l.find? p = some b →
      ∃ l1 l2, l = l1 ++ b :: l2 ∧ p b = true ∧ ∀ y ∈ l1, p y = false := by
  intro l
  induction l with
  | nil => intro b h; simp at h
  | cons a t ih =>
    intro b h
    cases hpa : p a with
    | true =>
      rw [List.find?_cons_of_pos _ hpa] at h
      obtain rfl : a = b := Option.some.inj h
      exact ⟨[], t, rfl, hpa, by intro y hy; cases hy⟩
    | false =>
      rw [List.find?_cons_of_neg _ (by simp [hpa])] at h
      obtain ⟨l1, l2, hsplit, hb, hprev⟩ := ih h
      refine ⟨a :: l1, l2, by rw [hsplit, List.cons_append], hb, ?_⟩
      intro y hy
      rcases List.mem_cons.mp hy with rfl | hy2
      · exact hpa
      · exact hprev y hy2

/-- The double scan only ever returns a pair satisfying the spec's
first-admissible-pair description. -/
theorem findPairAux_some (runs : List (Nat × Run)) :
    ∀ (ids : List Nat) (p q : Nat),
      findPairAux runs ids = Except.ok (some (p, q)) → IsFirstPair runs ids p q := by
  intro ids
  induction ids with
  | nil => intro p q h; simp [findPairAux] at h
  | cons a rest ih =>
    intro p q h
    cases rest with
    | nil => simp [findPairAux] at h
    | cons b rest2 =>
      unfold findPairAux at h
      split at h
      next => exact Except.noConfusion h
      next r halo =>
        split at h
        next x hf =>
          obtain ⟨rfl, rfl⟩ : a = p ∧ x = q := by simpa using h
          refine Or.inl ⟨rfl, r, halo, ?_⟩
          obtain ⟨l1, l2, hsplit, hb, hprev⟩ := find?_split _ hf
          refine ⟨l1, l2, hsplit, by simpa using hb, ?_⟩
          intro y hy
          have hpf := hprev y hy
          simpa using hpf
        next hf =>
          have hall : ∀ y ∈ b :: rest2, y ∈ r.opponents_played := by
            intro y hy
            have hny := List.find?_eq_none.mp hf y hy
            simpa using hny
          exact Or.inr ⟨⟨r, halo, hall⟩, ih p q h⟩

theorem IsFirstPair_not_played (runs : List (Nat × Run)) :
    ∀ (ids : List Nat) (p q : Nat), IsFirstPair runs ids p q →
      ∃ r, alookup p runs = some r ∧ q ∉ r.opponents_played := by
  intro ids
  induction ids with
  | nil => intro p q h; exact h.elim
  | cons a rest ih =>
    intro p q h
    rcases h with ⟨hpa, r, halo, hinner⟩ | ⟨_, hrec⟩
    · subst hpa
      obtain ⟨l1, l2, _, hq, _⟩ := hinner
      exact ⟨r, halo, hq⟩
    · exact ih p q hrec

theorem not_mem_map_fst_filter_pair_left (x y : Nat) (l : List (Nat × Int)) :
    x ∉ (l.filter fun e => decide (e.1 ≠ x ∧ e.1 ≠ y)).map Prod.fst := by
  intro h
  rcases List.mem_map.mp h with ⟨e, he, hfst⟩
  rcases List.mem_filter.mp he with ⟨_, hdec⟩
  rw [decide_eq_true_eq] at hdec
  exact hdec.1 hfst

theorem not_mem_map_fst_filter_pair_right (x y : Nat) (l : List (Nat × Int)) :
    y ∉ (l.filter fun e => decide (e.1 ≠ x ∧ e.1 ≠ y)).map Prod.fst := by
  intro h
  rcases List.mem_map.mp h with ⟨e, he, hfst⟩
  rcases List.mem_filter.mp he with ⟨_, hdec⟩
  rw [decide_eq_true_eq] at hdec
  exact hdec.2 hfst

theorem check_for_match_cases (s : BotState) :
    ((check_for_match s).2 = none ∧ (check_for_match s).1 = s)
    ∨ ∃ p q, (check_for_match s).2 = some (p, q)
        ∧ findPairAux s.runs (sortedQueueIds s) = Except.ok (some (p, q))
        ∧ (check_for_match s).1
            = { s with player_queue :=
                s.player_queue.filter (fun e => decide (e.1 ≠ p ∧ e.1 ≠ q)) } := by
  unfold check_for_match
  rcases hfp : findPairAux s.runs (sortedQueueIds s) with e | o
  · exact Or.inl ⟨rfl, rfl⟩
  · cases o with
    | none => exact Or.inl ⟨rfl, rfl⟩
    | some pr =>
      obtain ⟨p, q⟩ := pr
      exact Or.inr ⟨p, q, rfl, rfl, rfl⟩

/-- Claim C3: the pairing call scans the queue in ascending enqueued-at
order (the scanned list is sorted by join time and is a permutation of the
queue), never selects a pair `(p, q)` with `q` in `p`'s opponents_played,
selects the first admissible pair of that scan, and in the same call
removes exactly the two selected players from the queue (a call that finds
no pair changes nothing, so no call leaves only one of the two queued). -/
theorem gnk_C3 (s : BotState) :
    ((check_for_match s).2 = none → (check_for_match s).1 = s)
    ∧ (sortedQueue s).Sorted byTime
    ∧ (sortedQueue s).Perm s.player_queue
    ∧ ∀ p q, (check_for_match s).2 = some (p, q) →
        (∃ r, alookup p s.runs = some r ∧ q ∉ r.opponents_played)
        ∧ IsFirstPair s.runs (sortedQueueIds s) p q
        ∧ p ∉ ((check_for_match s).1.player_queue.map Prod.fst)
        ∧ q ∉ ((check_for_match s).1.player_queue.map Prod.fst)
        ∧ (check_for_match s).1.player_queue
            = s.player_queue.filter (fun e => decide (e.1 ≠ p ∧ e.1 ≠ q)) := by
  refine ⟨?_, List.sorted_insertionSort byTime s.player_queue,
    List.perm_insertionSort byTime s.player_queue, ?_⟩
  · intro h
    rcases check_for_match_cases s with ⟨_, h1⟩ | ⟨p, q, h2, _, _⟩
    · exact h1
    · rw [h2] at h
      cases h
  · intro p q h
    rcases check_for_match_cases s with ⟨h0, _⟩ | ⟨p2, q2, h2, hfp, h1⟩
    · rw [h0] at h
      cases h
    · obtain ⟨rfl, rfl⟩ : p2 = p ∧ q2 = q := by
        rw [h2] at h
        simpa using h
      have hfirst := findPairAux_some s.runs (sortedQueueIds s) _ _ hfp
      refine ⟨IsFirstPair_not_played s.runs (sortedQueueIds s) _ _ hfirst, hfirst, ?_, ?_, ?_⟩
      · rw [h1]
        exact not_mem_map_fst_filter_pair_left _ _ s.player_queue
      · rw [h1]
        exact not_mem_map_fst_filter_pair_right _ _ s.player_queue
      · rw [h1]

theorem gnk_C3_witness :
    (∃ r, alookup 1 qState.runs = some r ∧ 2 ∉ r.opponents_played)
    ∧ IsFirstPair qState.runs (sortedQueueIds qState) 1 2
    ∧ 1 ∉ ((check_for_match qState).1.player_queue.map Prod.fst)
    ∧ 2 ∉ ((check_for_match qState).1.player_queue.map Prod.fst)
    ∧ (check_for_match qState).1.player_queue
        = qState.player_queue.filter (fun e => decide (e.1 ≠ 1 ∧ e.1 ≠ 2)) :=
  (gnk_C3 qState).2.2.2 1 2 (by decide)
